import Mathlib

/-!
Verification development for the CipherNote encrypted-note application.

The development shallowly embeds the application's TypeScript modules:

* `src/src/utils/crypto/simpleEncryption.ts` — the colon-separated
  `salt:iv:ciphertext` codec (namespace `SimpleEncryption`);
* the blob-format crypto module (single Base64 blob `salt || iv || ciphertext`,
  namespace `BlobCrypto`);
* `src/src/utils/passwordPolicy.ts` and the password-strength module
  (namespace `PasswordPolicy`).

Browser / Web Crypto primitives that are not part of the repository
(`btoa`/`atob`, `TextEncoder`/`TextDecoder`, `crypto.subtle` PBKDF2 and
AES-GCM, `fetch`) are modelled as ideal, executable Lean functions:
Base64 is implemented exactly; the key-derivation and AEAD primitives are
modelled as ideal injective operations (deterministic, and authentication
succeeds exactly when key, nonce and associated data all match), which is
the contract the application code relies on; the network is an explicit
input of type `FetchOutcome`; randomness (salt and IV draws) is passed as
explicit arguments.
-/

/-- Model of JavaScript `String.prototype.split` with a one-character
separator: splits at every occurrence of the separator, keeps empty
segments, and returns a single segment for the empty string. -/
def jsSplit (sep : Char) : List Char → List (List Char)
  | [] => [[]]
  | c :: rest =>
    if c = sep then [] :: jsSplit sep rest
    else
      match jsSplit sep rest with
      | [] => [[c]]
      | g :: gs => (c :: g) :: gs

theorem jsSplit_of_not_mem {sep : Char} {l : List Char} (h : sep ∉ l) :
    jsSplit sep l = [l] := by
  induction l with
  | nil => rfl
  | cons c rest ih =>
    have hc : ¬(c = sep) := fun he => h (he ▸ List.mem_cons_self c rest)
    have hr : sep ∉ rest := fun hm => h (List.mem_cons_of_mem c hm)
    simp [jsSplit, hc, ih hr]

theorem jsSplit_append {sep : Char} {a : List Char} (r : List Char) (h : sep ∉ a) :
    jsSplit sep (a ++ sep :: r) = a :: jsSplit sep r := by
  induction a with
  | nil => simp [jsSplit]
  | cons c a' ih =>
    have hc : ¬(c = sep) := fun he => h (he ▸ List.mem_cons_self c a')
    have ha : sep ∉ a' := fun hm => h (List.mem_cons_of_mem c hm)
    simp only [List.cons_append, jsSplit, if_neg hc, List.append_eq, ih ha]

/-- Base64 alphabet shared by `btoa`, `atob` and js-base64. -/
def b64Chars : List Char :=
  "ABCDEFGHIJKLMNOPQRSTUVWXYZabcdefghijklmnopqrstuvwxyz0123456789+/".toList

/-- Index of a character in a character list, offset by `i`; `none` when the
character does not occur. -/
def charIndexFrom : List Char → Char → Nat → Option Nat
  | [], _, _ => none
  | d :: rest, c, i => if d = c then some i else charIndexFrom rest c (i + 1)

/-- Alphabet character for a six-bit group (out-of-range groups, which the
encoder never produces for genuine bytes, default to `A`). -/
def b64Char (n : Nat) : Char := b64Chars.getD n 'A'

/-- Position of a character in the Base64 alphabet; `none` for characters
outside the alphabet (this is what makes `atob` fail on invalid input). -/
def b64CharIndex (c : Char) : Option Nat := charIndexFrom b64Chars c 0

/-- Base64 encoding of a byte list (models `btoa` applied to a binary
string, and js-base64's `fromUint8Array`): each group of three bytes
becomes four alphabet characters, and a trailing group of one or two bytes
is padded with `=`. -/
def b64EncodeBytes : List Nat → List Char
  | [] => []
  | [b1] => [b64Char (b1 / 4), b64Char (b1 % 4 * 16), '=', '=']
  | [b1, b2] =>
    [b64Char (b1 / 4), b64Char (b1 % 4 * 16 + b2 / 16), b64Char (b2 % 16 * 4), '=']
  | b1 :: b2 :: b3 :: rest =>
    b64Char (b1 / 4) :: b64Char (b1 % 4 * 16 + b2 / 16) ::
      b64Char (b2 % 16 * 4 + b3 / 64) :: b64Char (b3 % 64) :: b64EncodeBytes rest

/-- Base64 decoding of a character list (models `atob` and js-base64's
decoder as documented by the repository: it fails on characters outside
the alphabet and on lengths that are not a multiple of four). -/
def b64DecodeChars : List Char → Option (List Nat)
  | [] => some []
  | c1 :: c2 :: c3 :: c4 :: rest =>
    if rest = [] ∧ c3 = '=' ∧ c4 = '=' then
      match b64CharIndex c1, b64CharIndex c2 with
      | some n1, some n2 => some [n1 * 4 + n2 / 16]
      | _, _ => none
    else if rest = [] ∧ c4 = '=' then
      match b64CharIndex c1, b64CharIndex c2, b64CharIndex c3 with
      | some n1, some n2, some n3 => some [n1 * 4 + n2 / 16, n2 % 16 * 16 + n3 / 4]
      | _, _, _ => none
    else
      match b64CharIndex c1, b64CharIndex c2, b64CharIndex c3, b64CharIndex c4,
          b64DecodeChars rest with
      | some n1, some n2, some n3, some n4, some tail =>
        some ((n1 * 4 + n2 / 16) :: ((n2 % 16 * 16 + n3 / 4) :: ((n3 % 4 * 64 + n4) :: tail)))
      | _, _, _, _, _ => none
  | _ => none

theorem b64Char_mem (n : Nat) : b64Char n ∈ b64Chars := by
  unfold b64Char
  rcases Nat.lt_or_ge n b64Chars.length with h | h
  · rw [List.getD_eq_getElem _ _ h]
    exact List.getElem_mem h
  · rw [List.getD_eq_default _ _ h]
    decide

theorem b64Char_ne_pad (n : Nat) : b64Char n ≠ '=' := by
  intro h
  have hm := b64Char_mem n
  rw [h] at hm
  revert hm
  decide

theorem b64Char_ne_colon (n : Nat) : b64Char n ≠ ':' := by
  intro h
  have hm := b64Char_mem n
  rw [h] at hm
  revert hm
  decide

theorem b64CharIndex_b64Char : ∀ n < 64, b64CharIndex (b64Char n) = some n := by
  decide

theorem b64Encode_no_colon : ∀ (bs : List Nat), ':' ∉ b64EncodeBytes bs := by
  intro bs
  induction bs using b64EncodeBytes.induct with
  | case1 => simp [b64EncodeBytes]
  | case2 b1 =>
    simp only [b64EncodeBytes, List.mem_cons, List.not_mem_nil, or_false]
    intro h
    rcases h with h | h | h | h <;> first
      | exact b64Char_ne_colon _ h.symm
      | exact absurd h.symm (by decide)
  | case3 b1 b2 =>
    simp only [b64EncodeBytes, List.mem_cons, List.not_mem_nil, or_false]
    intro h
    rcases h with h | h | h | h <;> first
      | exact b64Char_ne_colon _ h.symm
      | exact absurd h.symm (by decide)
  | case4 b1 b2 b3 rest ih =>
    simp only [b64EncodeBytes, List.mem_cons]
    intro h
    rcases h with h | h | h | h | h <;> first
      | exact b64Char_ne_colon _ h.symm
      | exact ih h

theorem b64Encode_ne_nil {bs : List Nat} (h : bs ≠ []) : b64EncodeBytes bs ≠ [] := by
  match bs with
  | [] => exact absurd rfl h
  | [b1] => simp [b64EncodeBytes]
  | [b1, b2] => simp [b64EncodeBytes]
  | b1 :: b2 :: b3 :: rest => simp [b64EncodeBytes]

theorem b64_roundtrip : ∀ {bs : List Nat}, (∀ b ∈ bs, b < 256) →
    b64DecodeChars (b64EncodeBytes bs) = some bs := by
  intro bs
  induction bs using b64EncodeBytes.induct with
  | case1 => intro _; rfl
  | case2 b1 =>
    intro h
    have hb1 : b1 < 256 := h b1 (by simp)
    simp only [b64EncodeBytes, b64DecodeChars]
    rw [if_pos (by simp)]
    rw [b64CharIndex_b64Char _ (by omega), b64CharIndex_b64Char _ (by omega)]
    simp only [Option.some.injEq, List.cons.injEq, and_true]
    omega
  | case3 b1 b2 =>
    intro h
    have hb1 : b1 < 256 := h b1 (by simp)
    have hb2 : b2 < 256 := h b2 (by simp)
    simp only [b64EncodeBytes, b64DecodeChars]
    rw [if_neg (by rintro ⟨-, h3, -⟩; exact b64Char_ne_pad _ h3)]
    rw [if_pos (by simp)]
    rw [b64CharIndex_b64Char _ (by omega), b64CharIndex_b64Char _ (by omega),
      b64CharIndex_b64Char _ (by omega)]
    simp only [Option.some.injEq, List.cons.injEq, and_true]
    omega
  | case4 b1 b2 b3 rest ih =>
    intro h
    have hb1 : b1 < 256 := h b1 (by simp)
    have hb2 : b2 < 256 := h b2 (by simp)
    have hb3 : b3 < 256 := h b3 (by simp)
    have hrest : ∀ b ∈ rest, b < 256 := fun b hb => h b (by simp [hb])
    simp only [b64EncodeBytes, b64DecodeChars]
    rw [if_neg (by rintro ⟨-, h3, -⟩; exact b64Char_ne_pad _ h3)]
    rw [if_neg (by rintro ⟨-, h4⟩; exact b64Char_ne_pad _ h4)]
    rw [b64CharIndex_b64Char _ (by omega), b64CharIndex_b64Char _ (by omega),
      b64CharIndex_b64Char _ (by omega), b64CharIndex_b64Char _ (by omega)]
    rw [show b64DecodeChars (b64EncodeBytes rest) = some rest from ih hrest]
    simp only [Option.some.injEq, List.cons.injEq, and_true]
    refine ⟨by omega, by omega, by omega⟩

theorem b64Encode_inj {bs1 bs2 : List Nat} (h1 : ∀ b ∈ bs1, b < 256)
    (h2 : ∀ b ∈ bs2, b < 256) (he : b64EncodeBytes bs1 = b64EncodeBytes bs2) :
    bs1 = bs2 := by
  have := b64_roundtrip h1
  rw [he, b64_roundtrip h2] at this
  exact (Option.some.injEq _ _ ▸ this).symm

/-- Model of `TextEncoder.encode` (`textToBuffer` in both crypto modules): an
ideal text-to-bytes codec, rendered as the list of character code points.
Only its injectivity and its inverse below are relied upon, matching the
UTF-8 codec of the browser. -/
def textToBuffer (text : String) : List Nat := text.data.map Char.toNat

/-- Model of `TextDecoder.decode` (`bufferToText`): left inverse of
`textToBuffer`. -/
def bufferToText (buffer : List Nat) : String := String.mk (buffer.map Char.ofNat)

theorem bufferToText_textToBuffer (s : String) : bufferToText (textToBuffer s) = s := by
  unfold bufferToText textToBuffer
  rw [List.map_map]
  have : (Char.ofNat ∘ Char.toNat) = id := by
    funext c
    exact Char.ofNat_toNat c
  rw [this, List.map_id]

theorem textToBuffer_inj {s t : String} (h : textToBuffer s = textToBuffer t) : s = t := by
  have := congrArg bufferToText h
  rwa [bufferToText_textToBuffer, bufferToText_textToBuffer] at this

/-- Injective encoding of a list of naturals into one natural, built from
the Cantor pairing function. Used to build the ideal-cipher model of the
Web Crypto primitives. -/
def natListCode : List Nat → Nat
  | [] => 0
  | a :: l => Nat.pair a (natListCode l) + 1

/-- Left inverse of `natListCode`. -/
def natListDecode : Nat → List Nat
  | 0 => []
  | n + 1 => (Nat.unpair n).1 :: natListDecode (Nat.unpair n).2
decreasing_by exact Nat.lt_succ_of_le (Nat.unpair_right_le n)

theorem natListDecode_code (l : List Nat) : natListDecode (natListCode l) = l := by
  induction l with
  | nil => simp [natListCode, natListDecode]
  | cons a t ih =>
    simp only [natListCode, natListDecode, Nat.unpair_pair, ih]

theorem natListCode_inj {l1 l2 : List Nat} (h : natListCode l1 = natListCode l2) :
    l1 = l2 := by
  have := congrArg natListDecode h
  rwa [natListDecode_code, natListDecode_code] at this

/-- Injective code of a string (via its character code points). -/
def strCode (s : String) : Nat := natListCode (s.data.map Char.toNat)

theorem strCode_inj {s t : String} (h : strCode s = strCode t) : s = t :=
  textToBuffer_inj (natListCode_inj h)

/-- Model of `deriveKey` (PBKDF2-SHA256 under `crypto.subtle`, 600 000
iterations, 256-bit AES-GCM key): an ideal key-derivation function —
deterministic, and distinct for distinct (password, salt) pairs. The key
is ephemeral and never serialized, so it is carried as the pair itself. -/
def deriveKey (password : String) (salt : List Nat) : String × List Nat :=
  (password, salt)

/-- Injective code of a derived key. -/
def keyCode (key : String × List Nat) : Nat :=
  Nat.pair (strCode key.1) (natListCode key.2)

theorem keyCode_inj {k1 k2 : String × List Nat} (h : keyCode k1 = keyCode k2) :
    k1 = k2 := by
  unfold keyCode at h
  rw [Nat.pair_eq_pair] at h
  obtain ⟨h1, h2⟩ := h
  obtain ⟨a1, b1⟩ := k1
  obtain ⟨a2, b2⟩ := k2
  exact Prod.ext (strCode_inj h1) (natListCode_inj h2)

/-- Base-`b` digits with explicit fuel, so that the kernel can evaluate
it (the Mathlib `Nat.digits` is defined by well-founded recursion and
does not reduce definitionally). -/
def toDigitsAux (b : Nat) : Nat → Nat → List Nat
  | 0, _ => []
  | fuel + 1, n => if n = 0 then [] else n % b :: toDigitsAux b fuel (n / b)

/-- Little-endian base-`b` digits of `n`; agrees with `Nat.digits` for
bases of at least two (`natDigits_eq_digits`). -/
def natDigits (b n : Nat) : List Nat := toDigitsAux b n n

theorem toDigitsAux_eq_digits (b : Nat) (hb : 2 ≤ b) :
    ∀ fuel n, n ≤ fuel → toDigitsAux b fuel n = Nat.digits b n := by
  intro fuel
  induction fuel with
  | zero =>
    intro n hn
    interval_cases n
    simp [toDigitsAux]
  | succ fuel ih =>
    intro n hn
    by_cases h0 : n = 0
    · simp [toDigitsAux, h0]
    · have hpos : 0 < n := Nat.pos_of_ne_zero h0
      have hdiv : n / b ≤ fuel := by
        have := Nat.div_lt_self hpos (by omega : 1 < b)
        omega
      simp only [toDigitsAux, if_neg h0, ih _ hdiv]
      rw [Nat.digits_def' (by omega : 1 < b) hpos]

theorem natDigits_eq_digits (b n : Nat) (hb : 2 ≤ b) :
    natDigits b n = Nat.digits b n :=
  toDigitsAux_eq_digits b hb n n le_rfl

/-- Model of `crypto.subtle.encrypt` with AES-GCM: an ideal authenticated
cipher. The ciphertext (which in AES-GCM carries the authentication tag
binding key, IV and additional data) is modelled as the base-256 digit
string of an injective code of (key, iv, aad, plaintext); decryption
recovers the plaintext exactly when key, IV and additional data all
match, and fails otherwise — the AEAD contract the application relies
on. All produced bytes are below 256 and the ciphertext is never empty
(a real AES-GCM ciphertext always contains the 16-byte tag). -/
def aesGcmEncrypt (key : String × List Nat) (iv aad pt : List Nat) : List Nat :=
  natDigits 256
    (Nat.pair (keyCode key) (Nat.pair (natListCode iv) (Nat.pair (natListCode aad) (natListCode pt))) + 1)

/-- Model of `crypto.subtle.decrypt` with AES-GCM; see `aesGcmEncrypt`.
Returns `none` (an `OperationError` in the browser) when authentication
fails. -/
def aesGcmDecrypt (key : String × List Nat) (iv aad ct : List Nat) : Option (List Nat) :=
  match Nat.ofDigits 256 ct with
  | 0 => none
  | m + 1 =>
    let q := Nat.unpair m
    let r := Nat.unpair q.2
    let s := Nat.unpair r.2
    if q.1 = keyCode key ∧ r.1 = natListCode iv ∧ s.1 = natListCode aad then
      some (natListDecode s.2)
    else none

theorem aesGcm_roundtrip (key : String × List Nat) (iv aad pt : List Nat) :
    aesGcmDecrypt key iv aad (aesGcmEncrypt key iv aad pt) = some pt := by
  unfold aesGcmEncrypt aesGcmDecrypt
  rw [natDigits_eq_digits _ _ (by norm_num), Nat.ofDigits_digits]
  simp only [Nat.unpair_pair, and_self, if_pos, natListDecode_code]

theorem aesGcmEncrypt_bytes_lt (key : String × List Nat) (iv aad pt : List Nat) :
    ∀ b ∈ aesGcmEncrypt key iv aad pt, b < 256 := by
  intro b hb
  rw [aesGcmEncrypt, natDigits_eq_digits _ _ (by norm_num)] at hb
  exact Nat.digits_lt_base (by norm_num) hb

theorem aesGcmEncrypt_ne_nil (key : String × List Nat) (iv aad pt : List Nat) :
    aesGcmEncrypt key iv aad pt ≠ [] := by
  unfold aesGcmEncrypt
  rw [natDigits_eq_digits _ _ (by norm_num), Nat.digits_ne_nil_iff_ne_zero]
  omega

theorem aesGcmDecrypt_wrong (key key' : String × List Nat) (iv aad aad' pt : List Nat)
    (h : key' ≠ key ∨ aad' ≠ aad) :
    aesGcmDecrypt key' iv aad' (aesGcmEncrypt key iv aad pt) = none := by
  unfold aesGcmEncrypt aesGcmDecrypt
  rw [natDigits_eq_digits _ _ (by norm_num), Nat.ofDigits_digits]
  simp only [Nat.unpair_pair]
  rw [if_neg]
  rintro ⟨h1, -, h3⟩
  rcases h with h | h
  · exact h (keyCode_inj h1.symm)
  · exact h (natListCode_inj h3.symm)

/-- Fixed protocol constant: 128-bit PBKDF2 salt (16 bytes). -/
def SALT_LEN : Nat := 16

/-- Fixed protocol constant: 96-bit AES-GCM IV (12 bytes). -/
def IV_LEN : Nat := 12

namespace SimpleEncryption

/-- Decryption errors of `src/src/utils/crypto/simpleEncryption.ts`:
`invalidFormat` is the `Invalid encrypted format` exception thrown when
the token does not split into three parts, `invalidBase64` the
`InvalidCharacterError` thrown by `atob` inside `base64ToBuffer`, and
`authFailed` the `OperationError` thrown by `crypto.subtle.decrypt` when
the AES-GCM tag does not verify. -/
inductive DecryptError
  | invalidFormat
  | invalidBase64
  | authFailed
deriving DecidableEq

/-- Embedding of `encryptField` from
`src/src/utils/crypto/simpleEncryption.ts` (lines 115-136). The two
random draws made there by `crypto.getRandomValues` — a 16-byte salt and
a 12-byte IV — are explicit arguments. Returns the colon-joined Base64
encodings of salt, IV and ciphertext, exactly as
`[bufferToBase64(salt), bufferToBase64(iv), bufferToBase64(ciphertext)].join(':')`. -/
def encryptField (plaintext password aad : String) (salt iv : List Nat) : String :=
  String.mk
    (b64EncodeBytes salt ++ ':' ::
      (b64EncodeBytes iv ++ ':' ::
        b64EncodeBytes (aesGcmEncrypt (deriveKey password salt) iv (textToBuffer aad)
          (textToBuffer plaintext))))

/-- Embedding of `decryptField` from
`src/src/utils/crypto/simpleEncryption.ts` (lines 147-170): split on `:`,
require exactly three parts, Base64-decode each, derive the key from the
password and the decoded salt, and AES-GCM-decrypt with the decoded IV
and the associated data. -/
def decryptField (encoded password aad : String) : Except DecryptError String :=
  match jsSplit ':' encoded.data with
  | [saltB64, ivB64, ctB64] =>
    match b64DecodeChars saltB64, b64DecodeChars ivB64, b64DecodeChars ctB64 with
    | some salt, some iv, some ct =>
      match aesGcmDecrypt (deriveKey password salt) iv (textToBuffer aad) ct with
      | some ptBytes => Except.ok (bufferToText ptBytes)
      | none => Except.error DecryptError.authFailed
    | _, _, _ => Except.error DecryptError.invalidBase64
  | _ => Except.error DecryptError.invalidFormat

/-- Embedding of `isEncrypted` from
`src/src/utils/crypto/simpleEncryption.ts` (lines 179-182): the value
splits on `:` into exactly three non-empty parts. -/
def isEncrypted (value : String) : Bool :=
  let parts := jsSplit ':' value.data
  parts.length == 3 && parts.all fun p => decide (0 < p.length)

end SimpleEncryption

namespace BlobCrypto

/-- Minimum decoded blob length: salt (16) + IV (12) + at least one
ciphertext byte. -/
def MIN_BLOB_LEN : Nat := SALT_LEN + IV_LEN + 1

/-- Embedding of `parseBlob` from the blob-format crypto module
(`src/unnamed/part_003`, lines 42-46): Base64-decode the token
(`toUint8Array`, which per the module's documented contract throws on
input that is not valid Base64) and reject decoded blobs shorter than
`MIN_BLOB_LEN` with the `Invalid encrypted format` error. -/
def parseBlob (value : String) : Except String (List Nat) :=
  match b64DecodeChars value.data with
  | none => Except.error "InvalidCharacterError"
  | some bytes =>
    if bytes.length < MIN_BLOB_LEN then Except.error "Invalid encrypted format"
    else Except.ok bytes

/-- Embedding of the blob-format `isEncrypted`: false for the empty
string, otherwise true exactly when `parseBlob` does not throw. -/
def isEncrypted (value : String) : Bool :=
  if value = "" then false
  else
    match parseBlob value with
    | Except.ok _ => true
    | Except.error _ => false

/-- Embedding of the blob-format `decryptField`: parse and validate the
blob, slice it into salt (bytes 0-15), IV (bytes 16-27) and ciphertext
(the rest), then derive the key and AES-GCM-decrypt. -/
def decryptField (encryptedBlob password aad : String) : Except String String :=
  match parseBlob encryptedBlob with
  | Except.error e => Except.error e
  | Except.ok raw =>
    let salt := raw.take SALT_LEN
    let iv := (raw.drop SALT_LEN).take IV_LEN
    let ct := raw.drop (SALT_LEN + IV_LEN)
    match aesGcmDecrypt (deriveKey password salt) iv (textToBuffer aad) ct with
    | some ptBytes => Except.ok (bufferToText ptBytes)
    | none => Except.error "OperationError"

/-- A token is undersized when it decodes to fewer than `MIN_BLOB_LEN`
bytes (a failed decode counts as undersized as well). -/
def decodedShort (value : String) : Bool :=
  match b64DecodeChars value.data with
  | none => true
  | some bytes => decide (bytes.length < MIN_BLOB_LEN)

end BlobCrypto

example : BlobCrypto.decodedShort "QQ==" = true := by decide
example : BlobCrypto.parseBlob "!!!!" = Except.error "InvalidCharacterError" := by rfl
example : BlobCrypto.isEncrypted "QQ==" = false := by decide

namespace PasswordPolicy

/-- Uppercase hexadecimal digit characters. -/
def hexChars : List Char := "0123456789ABCDEF".toList

/-- Character for one hexadecimal digit. -/
def hexDigitChar (n : Nat) : Char := hexChars.getD n '0'

/-- Model of the SHA-1 digest rendered as 40 uppercase hexadecimal
characters (the `hashHex` computed by `checkPwnedPassword` from
`crypto.subtle.digest`). SHA-1 itself is a Web Crypto primitive outside
the repository; it is modelled as an ideal digest — a deterministic,
collision-free function of the password producing uppercase hex output —
which is all the k-anonymity protocol relies on. -/
def sha1HexUpper (s : String) : String :=
  let h := ((natDigits 16 (strCode s + 1)).map hexDigitChar).reverse
  String.mk (List.replicate (40 - h.length) '0' ++ h)

/-- First five hex characters of the hash: the only password-derived data
that leaves the client (`hashHex.slice(0, 5)`). -/
def hashPre5 (s : String) : String := String.mk ((sha1HexUpper s).data.take 5)

/-- Remaining hex characters of the hash, matched locally
(`hashHex.slice(5)`). -/
def hashSuf (s : String) : String := String.mk ((sha1HexUpper s).data.drop 5)

/-- The URL requested from the HaveIBeenPwned range API. -/
def requestUrl (s : String) : String :=
  "https://api.pwnedpasswords.com/range/" ++ hashPre5 s

/-- Outcome of the `fetch` call, made an explicit input: the request
rejected (network failure), or a response with its `ok` flag and body. -/
inductive FetchOutcome
  | networkError
  | response (ok : Bool) (body : String)

/-- Whitespace test used by the JavaScript string trims. -/
def isWsChar (c : Char) : Bool := c = ' ' || c = '\t' || c = '\n' || c = '\r'

/-- Model of `String.prototype.trim`: strip whitespace from both ends. -/
def jsTrim (s : String) : String :=
  String.mk (((s.data.dropWhile isWsChar).reverse.dropWhile isWsChar).reverse)

/-- Model of `String.prototype.toUpperCase` for the ASCII range. -/
def jsToUpper (s : String) : String := String.mk (s.data.map Char.toUpper)

/-- Longest leading run of decimal digit characters. -/
def digitRun : List Char → List Char
  | [] => []
  | c :: rest => if '0' ≤ c ∧ c ≤ '9' then c :: digitRun rest else []

/-- Decimal value of a digit-character run, most significant first. -/
def digitsVal : List Char → Nat → Nat
  | [], acc => acc
  | c :: rest, acc => digitsVal rest (acc * 10 + (c.toNat - 48))

/-- Model of JavaScript `parseInt(s, 10)`: skip leading whitespace, parse
the longest leading digit run, `NaN` (here `none`) when there is none.
Sign and exotic forms, which never occur in breach counts, are elided. -/
def jsParseInt (s : String) : Option Nat :=
  let ds := digitRun (jsTrim s).data
  if ds = [] then none
  else some (digitsVal ds 0)

/-- Model of `parseInt(count, 10)` where `count` may be `undefined`
(destructuring a line without a colon): `parseInt(undefined, 10)` is
`NaN`, represented as `none`. -/
def parseIntOpt : Option String → Option Nat
  | none => none
  | some s => jsParseInt s

/-- The matching loop of `checkPwnedPassword` over the response lines:
split each line on `:`, compare the trimmed, uppercased first field with
the local hash remainder, and on a match parse the count; `some 0` when
no line matches. `none` represents the JavaScript `NaN`. -/
def scanLines (suf : String) : List String → Option Nat
  | [] => some 0
  | line :: rest =>
    let parts := (jsSplit ':' line.data).map String.mk
    let hashSuffix := parts.headD ""
    if jsToUpper (jsTrim hashSuffix) = suf then parseIntOpt (parts.get? 1)
    else scanLines suf rest

/-- The response body contains no line matching the hash remainder: every
line's first `:`-field, trimmed and uppercased, differs from `suf`. This
is the condition under which `scanLines` falls through all lines. -/
def noLineMatches (suf body : String) : Bool :=
  ((jsSplit '\n' body.data).map String.mk).all fun line =>
    !(jsToUpper (jsTrim (((jsSplit ':' line.data).map String.mk).headD "")) == suf)

/-- Embedding of `checkPwnedPassword` from
`src/src/utils/passwordPolicy.ts` (lines 49-79). The first component is
the returned count (`none` = `NaN`); the second is the trace of outbound
requests, which the embedding makes explicit: the function always issues
exactly one request, for `requestUrl`, carrying only the five-character
hash head. Every failure path returns without throwing: a rejected fetch
is caught and yields 0, a non-`ok` response yields 0, and a body with no
matching line yields 0. -/
def checkPwnedPassword (password : String) (net : FetchOutcome) :
    Option Nat × List String :=
  let url := requestUrl password
  match net with
  | FetchOutcome.networkError => (some 0, [url])
  | FetchOutcome.response ok body =>
    if !ok then (some 0, [url])
    else (scanLines (hashSuf password) ((jsSplit '\n' body.data).map String.mk), [url])

/-- Result record of `validatePassword`. -/
structure PasswordValidationResult where
  valid : Bool
  errors : List String
deriving DecidableEq

/-- Minimum password length enforced by the policy. -/
def MIN_PASSWORD_LENGTH : Nat := 8

/-- The minimum-length error message. -/
def minLengthError : String := "Password must be at least 8 characters."

/-- Digit grouping of `toLocaleString('en-US')` with the commas replaced
by spaces: insert a separator after every three digits, counting from the
least significant digit (the input list is least-significant-first). -/
def groupThrees : List Char → List Char
  | [] => []
  | [a] => [a]
  | [a, b] => [a, b]
  | [a, b, c] => [a, b, c]
  | a :: b :: c :: d :: rest => a :: b :: c :: ' ' :: groupThrees (d :: rest)

/-- The formatted breach count (`Number(pwned).toLocaleString('en-US',
{useGrouping: true}).replace(/,/g, ' ')`). -/
def formatCount (n : Nat) : String :=
  String.mk (groupThrees ((natDigits 10 n).map hexDigitChar)).reverse

/-- The breach error message for a count. -/
def breachError (k : Nat) : String :=
  "This password has appeared in known data breaches (" ++ formatCount k ++
    " times). Please choose a different password."

/-- Embedding of `validatePassword` from
`src/src/utils/passwordPolicy.ts` (lines 17-33): collect the
minimum-length error, and only when there is none, consult the breach
check and add the breach error when the returned count is truthy
(a non-zero number; `NaN` is falsy). The second component is the trace
of outbound requests. -/
def validatePassword (password : String) (net : FetchOutcome) :
    PasswordValidationResult × List String :=
  let errors0 := if password.length < MIN_PASSWORD_LENGTH then [minLengthError] else []
  if errors0 = [] then
    let r := checkPwnedPassword password net
    let errors :=
      match r.1 with
      | some k => if k ≠ 0 then errors0 ++ [breachError k] else errors0
      | none => errors0
    ({ valid := errors.isEmpty, errors := errors }, r.2)
  else ({ valid := errors0.isEmpty, errors := errors0 }, [])

/-- Result record of `getPasswordStrength`. -/
structure PasswordStrength where
  level : String
  score : Nat
  label : String
deriving DecidableEq

/-- Test of `/[A-Z]/`. -/
def hasUpper (s : String) : Bool := s.data.any fun c => decide ('A' ≤ c) && decide (c ≤ 'Z')

/-- Test of `/[a-z]/`. -/
def hasLower (s : String) : Bool := s.data.any fun c => decide ('a' ≤ c) && decide (c ≤ 'z')

/-- Test of `/[0-9]/`. -/
def hasDigit (s : String) : Bool := s.data.any fun c => decide ('0' ≤ c) && decide (c ≤ '9')

/-- Test of `/[^A-Za-z0-9]/`. -/
def hasSymbol (s : String) : Bool :=
  s.data.any fun c =>
    !((decide ('A' ≤ c) && decide (c ≤ 'Z')) || (decide ('a' ≤ c) && decide (c ≤ 'z')) ||
      (decide ('0' ≤ c) && decide (c ≤ '9')))

/-- The raw score accumulated by `getPasswordStrength`: one point per
length threshold (8, 12, 16) and per covered character class. -/
def strengthScore (password : String) : Nat :=
  (if 8 ≤ password.length then 1 else 0) +
  (if 12 ≤ password.length then 1 else 0) +
  (if 16 ≤ password.length then 1 else 0) +
  (if hasUpper password then 1 else 0) +
  (if hasLower password then 1 else 0) +
  (if hasDigit password then 1 else 0) +
  (if hasSymbol password then 1 else 0)

/-- Embedding of `getPasswordStrength` from the password-strength module
(`src/unnamed/part_004`, lines 16-35): empty passwords score 0; otherwise
the raw score is clamped to 7 and bucketed into the four levels. -/
def getPasswordStrength (password : String) : PasswordStrength :=
  if password = "" then ⟨"weak", 0, "Weak"⟩
  else
    let normalized := min (strengthScore password) 7
    if normalized ≤ 2 then ⟨"weak", 1, "Weak"⟩
    else if normalized ≤ 4 then ⟨"fair", 2, "Fair"⟩
    else if normalized ≤ 5 then ⟨"good", 3, "Good"⟩
    else ⟨"strong", 4, "Strong"⟩

/-- The inputs `getPasswordStrength` inspects: length and the four
character-class coverage flags. -/
def classProfile (s : String) : Nat × Bool × Bool × Bool × Bool :=
  (s.length, hasUpper s, hasLower s, hasDigit s, hasSymbol s)

end PasswordPolicy

example : PasswordPolicy.getPasswordStrength "" =
    ⟨"weak", 0, "Weak"⟩ := by decide
example : PasswordPolicy.getPasswordStrength "Aa1!aaaaaaaaaaaa" =
    ⟨"strong", 4, "Strong"⟩ := by decide
example : PasswordPolicy.formatCount 1234567 = "1 234 567" := by decide
example : (PasswordPolicy.validatePassword "abc" PasswordPolicy.FetchOutcome.networkError).1 =
    ⟨false, [PasswordPolicy.minLengthError]⟩ := by decide

namespace SimpleEncryption

/-- The token built by `encryptField` splits on `:` into exactly the three
Base64 parts it was joined from (no Base64 character is a colon). -/
theorem token_parts (pt pw aad : String) (salt iv : List Nat) :
    jsSplit ':' (encryptField pt pw aad salt iv).data =
      [b64EncodeBytes salt, b64EncodeBytes iv,
        b64EncodeBytes (aesGcmEncrypt (deriveKey pw salt) iv (textToBuffer aad)
          (textToBuffer pt))] := by
  show jsSplit ':'
      (b64EncodeBytes salt ++ ':' ::
        (b64EncodeBytes iv ++ ':' ::
          b64EncodeBytes (aesGcmEncrypt (deriveKey pw salt) iv (textToBuffer aad)
            (textToBuffer pt)))) = _
  rw [jsSplit_append _ (b64Encode_no_colon salt),
    jsSplit_append _ (b64Encode_no_colon iv),
    jsSplit_of_not_mem (b64Encode_no_colon _)]

end SimpleEncryption

/-- Claim C1: for every plaintext `pt` (including the empty string and
arbitrarily long texts), password `pw` and associated data `aad`, and for
every well-formed random draw of a 16-byte salt and 12-byte IV,
decrypting the token produced by `encryptField` with the same password
and AAD returns exactly `pt`. -/
theorem C1_encrypt_decrypt_roundtrip (pt pw aad : String) (salt iv : List Nat)
    (hsl : salt.length = SALT_LEN) (hs : ∀ b ∈ salt, b < 256)
    (hil : iv.length = IV_LEN) (hi : ∀ b ∈ iv, b < 256) :
    SimpleEncryption.decryptField (SimpleEncryption.encryptField pt pw aad salt iv) pw aad
      = Except.ok pt := by
  unfold SimpleEncryption.decryptField
  rw [SimpleEncryption.token_parts]
  simp only [b64_roundtrip hs, b64_roundtrip hi,
    b64_roundtrip (aesGcmEncrypt_bytes_lt _ _ _ _), aesGcm_roundtrip,
    bufferToText_textToBuffer]

/-- Witness for C1 at the spec's example scenario. -/
theorem C1_encrypt_decrypt_roundtrip_witness :
    ((List.range 16).length = SALT_LEN ∧ (∀ b ∈ List.range 16, b < 256) ∧
      (List.range 12).length = IV_LEN ∧ (∀ b ∈ List.range 12, b < 256)) ∧
    SimpleEncryption.decryptField
      (SimpleEncryption.encryptField "Hello, secret world!" "correct-horse" "user1:note"
        (List.range 16) (List.range 12)) "correct-horse" "user1:note"
      = Except.ok "Hello, secret world!" :=
  ⟨⟨by decide, by decide, by decide, by decide⟩,
    C1_encrypt_decrypt_roundtrip "Hello, secret world!" "correct-horse" "user1:note"
      (List.range 16) (List.range 12) (by decide) (by decide) (by decide) (by decide)⟩

/-- Claim C3: decrypting a token produced by `encryptField` with a
different password or different associated data fails with the
authentication error (the AES-GCM `OperationError`), never returning a
plaintext. -/
theorem C3_wrong_password_or_aad_fails (pt pw pw' aad aad' : String) (salt iv : List Nat)
    (hsl : salt.length = SALT_LEN) (hs : ∀ b ∈ salt, b < 256)
    (hil : iv.length = IV_LEN) (hi : ∀ b ∈ iv, b < 256)
    (hdiff : pw' ≠ pw ∨ aad' ≠ aad) :
    SimpleEncryption.decryptField (SimpleEncryption.encryptField pt pw aad salt iv) pw' aad'
      = Except.error SimpleEncryption.DecryptError.authFailed := by
  unfold SimpleEncryption.decryptField
  rw [SimpleEncryption.token_parts]
  have hwrong : aesGcmDecrypt (deriveKey pw' salt) iv (textToBuffer aad')
      (aesGcmEncrypt (deriveKey pw salt) iv (textToBuffer aad) (textToBuffer pt)) = none := by
    apply aesGcmDecrypt_wrong
    rcases hdiff with h | h
    · exact Or.inl fun he => h (congrArg Prod.fst he)
    · exact Or.inr fun he => h (textToBuffer_inj he)
  simp only [b64_roundtrip hs, b64_roundtrip hi,
    b64_roundtrip (aesGcmEncrypt_bytes_lt _ _ _ _), hwrong]

/-- Witness for C3 at the spec's example scenario: a blob sealed with AAD
`user1:note` fails to open under AAD `user1:diary`. -/
theorem C3_wrong_password_or_aad_fails_witness :
    ((List.range 16).length = SALT_LEN ∧ (∀ b ∈ List.range 16, b < 256) ∧
      (List.range 12).length = IV_LEN ∧ (∀ b ∈ List.range 12, b < 256) ∧
      ("user1:diary" ≠ "user1:note" ∨ False)) ∧
    SimpleEncryption.decryptField
      (SimpleEncryption.encryptField "Hello, secret world!" "correct-horse" "user1:note"
        (List.range 16) (List.range 12)) "correct-horse" "user1:diary"
      = Except.error SimpleEncryption.DecryptError.authFailed :=
  ⟨⟨by decide, by decide, by decide, by decide, Or.inl (by decide)⟩,
    C3_wrong_password_or_aad_fails "Hello, secret world!" "correct-horse" "correct-horse"
      "user1:note" "user1:diary" (List.range 16) (List.range 12)
      (by decide) (by decide) (by decide) (by decide) (Or.inr (by decide))⟩

/-- Claim C4: two invocations of `encryptField` on the same plaintext,
password and AAD produce distinct tokens whenever the embedded fresh
random draws differ — the salt and IV are injectively recoverable from
the token, so distinct 28-byte random draws force distinct tokens.
(Randomness is modelled as the explicit salt/IV inputs; that two fresh
draws of `crypto.getRandomValues` coincide is the negligible-probability
event the spec's `never` refers to.) -/
theorem C4_fresh_draws_give_distinct_tokens (pt pw aad : String) (s1 i1 s2 i2 : List Nat)
    (h1l : s1.length = SALT_LEN) (h1 : ∀ b ∈ s1, b < 256)
    (h1l' : i1.length = IV_LEN) (h1' : ∀ b ∈ i1, b < 256)
    (h2l : s2.length = SALT_LEN) (h2 : ∀ b ∈ s2, b < 256)
    (h2l' : i2.length = IV_LEN) (h2' : ∀ b ∈ i2, b < 256)
    (hne : (s1, i1) ≠ (s2, i2)) :
    SimpleEncryption.encryptField pt pw aad s1 i1 ≠
      SimpleEncryption.encryptField pt pw aad s2 i2 := by
  intro he
  have hd := congrArg (fun s : String => jsSplit ':' s.data) he
  simp only [SimpleEncryption.token_parts, List.cons.injEq, and_true] at hd
  exact hne (Prod.ext (b64Encode_inj h1 h2 hd.1) (b64Encode_inj h1' h2' hd.2.1))

/-- Witness for C4 at two concrete distinct draws. -/
theorem C4_fresh_draws_give_distinct_tokens_witness :
    ((List.range 16).length = SALT_LEN ∧ (∀ b ∈ List.range 16, b < 256) ∧
      (List.range 12).length = IV_LEN ∧ (∀ b ∈ List.range 12, b < 256) ∧
      (List.replicate 16 7).length = SALT_LEN ∧ (∀ b ∈ List.replicate 16 7, b < 256) ∧
      (List.range 16, List.range 12) ≠ (List.replicate 16 7, List.range 12)) ∧
    SimpleEncryption.encryptField "note" "pw" "aad" (List.range 16) (List.range 12) ≠
      SimpleEncryption.encryptField "note" "pw" "aad" (List.replicate 16 7) (List.range 12) :=
  ⟨⟨by decide, by decide, by decide, by decide, by decide, by decide, by decide⟩,
    C4_fresh_draws_give_distinct_tokens "note" "pw" "aad"
      (List.range 16) (List.range 12) (List.replicate 16 7) (List.range 12)
      (by decide) (by decide) (by decide) (by decide) (by decide) (by decide)
      (by decide) (by decide) (by decide)⟩

/-- Claim C8: every token produced by `encryptField` passes the
`isEncrypted` format check — it splits on `:` into exactly three
non-empty parts. -/
theorem C8_encrypt_output_isEncrypted (pt pw aad : String) (salt iv : List Nat)
    (hsl : salt.length = SALT_LEN) (hs : ∀ b ∈ salt, b < 256)
    (hil : iv.length = IV_LEN) (hi : ∀ b ∈ iv, b < 256) :
    SimpleEncryption.isEncrypted (SimpleEncryption.encryptField pt pw aad salt iv) = true := by
  unfold SimpleEncryption.isEncrypted
  rw [SimpleEncryption.token_parts]
  have hsalt : b64EncodeBytes salt ≠ [] :=
    b64Encode_ne_nil (by intro h; rw [h] at hsl; simp [SALT_LEN] at hsl)
  have hiv : b64EncodeBytes iv ≠ [] :=
    b64Encode_ne_nil (by intro h; rw [h] at hil; simp [IV_LEN] at hil)
  have hct : b64EncodeBytes (aesGcmEncrypt (deriveKey pw salt) iv (textToBuffer aad)
      (textToBuffer pt)) ≠ [] :=
    b64Encode_ne_nil (aesGcmEncrypt_ne_nil _ _ _ _)
  simp [List.length_pos, hsalt, hiv, hct]

/-- Witness for C8 at a concrete input. -/
theorem C8_encrypt_output_isEncrypted_witness :
    ((List.range 16).length = SALT_LEN ∧ (∀ b ∈ List.range 16, b < 256) ∧
      (List.range 12).length = IV_LEN ∧ (∀ b ∈ List.range 12, b < 256)) ∧
    SimpleEncryption.isEncrypted
      (SimpleEncryption.encryptField "" "pw" "aad" (List.range 16) (List.range 12)) = true :=
  ⟨⟨by decide, by decide, by decide, by decide⟩,
    C8_encrypt_output_isEncrypted "" "pw" "aad" (List.range 16) (List.range 12)
      (by decide) (by decide) (by decide) (by decide)⟩

/-- Claim C2: a token whose Base64 decoding yields fewer than 29 bytes
(= SALT_LEN 16 + IV_LEN 12 + 1), or does not decode at all, is rejected
by the blob validator (`isEncrypted` is false), and parsing fails with
the malformed-format error; decryption fails with that same parse error
for every password and AAD — i.e. before any key derivation or cipher
operation, since the result does not depend on them. Decoding also fails
on an invalid alphabet, e.g. the token `!!!!`. -/
theorem C2_short_tokens_rejected (v : String) (h : BlobCrypto.decodedShort v = true) :
    BlobCrypto.isEncrypted v = false
    ∧ (∃ e, BlobCrypto.parseBlob v = Except.error e
        ∧ ∀ pw aad : String, BlobCrypto.decryptField v pw aad = Except.error e)
    ∧ BlobCrypto.parseBlob "!!!!" = Except.error "InvalidCharacterError" := by
  have hparse : ∃ e, BlobCrypto.parseBlob v = Except.error e := by
    unfold BlobCrypto.decodedShort at h
    cases hd : b64DecodeChars v.data with
    | none =>
      refine ⟨"InvalidCharacterError", ?_⟩
      unfold BlobCrypto.parseBlob
      rw [hd]
    | some bytes =>
      rw [hd] at h
      simp only [decide_eq_true_eq] at h
      refine ⟨"Invalid encrypted format", ?_⟩
      unfold BlobCrypto.parseBlob
      rw [hd]
      dsimp only
      rw [if_pos h]
  obtain ⟨e, he⟩ := hparse
  refine ⟨?_, ⟨e, he, fun pw aad => ?_⟩, by rfl⟩
  · unfold BlobCrypto.isEncrypted
    by_cases hv : v = ""
    · rw [if_pos hv]
    · rw [if_neg hv, he]
  · unfold BlobCrypto.decryptField
    rw [he]

/-- Witness for C2 at the one-byte token `QQ==`. -/
theorem C2_short_tokens_rejected_witness :
    BlobCrypto.decodedShort "QQ==" = true ∧
    (BlobCrypto.isEncrypted "QQ==" = false
      ∧ (∃ e, BlobCrypto.parseBlob "QQ==" = Except.error e
          ∧ ∀ pw aad : String, BlobCrypto.decryptField "QQ==" pw aad = Except.error e)
      ∧ BlobCrypto.parseBlob "!!!!" = Except.error "InvalidCharacterError") :=
  ⟨by decide, C2_short_tokens_rejected "QQ==" (by decide)⟩

namespace PasswordPolicy

/-- The request trace of `checkPwnedPassword` is always exactly one
request for `requestUrl`, on every path (network failure, non-OK
response, and scanned response alike). -/
theorem checkPwned_trace (p : String) (n : FetchOutcome) :
    (checkPwnedPassword p n).2 = [requestUrl p] := by
  cases n with
  | networkError => rfl
  | response ok body => cases ok <;> rfl

/-- Shape of every `getPasswordStrength` result: score at most 4, score 0
exactly on the empty password, and level/label drawn from the four
matching pairs. -/
theorem strength_shape (r : String) :
    (getPasswordStrength r).score ≤ 4
    ∧ ((getPasswordStrength r).score = 0 ↔ r = "")
    ∧ ((getPasswordStrength r).level, (getPasswordStrength r).label)
        ∈ [("weak", "Weak"), ("fair", "Fair"), ("good", "Good"), ("strong", "Strong")] := by
  by_cases hr : r = ""
  · simp [getPasswordStrength, hr]
  · unfold getPasswordStrength
    rw [if_neg hr]
    dsimp only
    split_ifs <;> simp [hr]

/-- `getPasswordStrength` depends only on the password's length and
character-class coverage. -/
theorem strength_profile_eq {p q : String} (h : classProfile p = classProfile q) :
    getPasswordStrength p = getPasswordStrength q := by
  simp only [classProfile, Prod.mk.injEq] at h
  obtain ⟨hl, hu, hlo, hdg, hsy⟩ := h
  have hscore : strengthScore p = strengthScore q := by
    unfold strengthScore
    rw [hl, hu, hlo, hdg, hsy]
  have hempty : p = "" ↔ q = "" := by
    constructor
    · intro hp
      have h0 : q.length = 0 := by
        rw [← hl, hp]
        rfl
      exact String.ext (List.length_eq_zero.mp h0)
    · intro hq
      have h0 : p.length = 0 := by
        rw [hl, hq]
        rfl
      exact String.ext (List.length_eq_zero.mp h0)
  by_cases hp : p = ""
  · rw [hp, hempty.mp hp]
  · have hq : ¬(q = "") := fun hq => hp (hempty.mpr hq)
    unfold getPasswordStrength
    rw [if_neg hp, if_neg hq, hscore]

theorem hexDigitChar_mem (n : Nat) : hexDigitChar n ∈ hexChars := by
  unfold hexDigitChar
  rcases Nat.lt_or_ge n hexChars.length with h | h
  · rw [List.getD_eq_getElem _ _ h]
    exact List.getElem_mem h
  · rw [List.getD_eq_default _ _ h]
    decide

theorem sha1Hex_chars (s : String) : ∀ ch ∈ (sha1HexUpper s).data, ch ∈ hexChars := by
  intro ch hm
  have hm' : ch ∈
      List.replicate
        (40 - (((natDigits 16 (strCode s + 1)).map hexDigitChar).reverse).length) '0'
      ++ ((natDigits 16 (strCode s + 1)).map hexDigitChar).reverse := hm
  rcases List.mem_append.mp hm' with h | h
  · rw [List.eq_of_mem_replicate h]
    decide
  · rw [List.mem_reverse] at h
    obtain ⟨d, -, rfl⟩ := List.mem_map.mp h
    exact hexDigitChar_mem d

theorem hashSuf_chars (s : String) : ∀ ch ∈ (hashSuf s).data, ch ∈ hexChars := by
  intro ch hm
  have hm' : ch ∈ (sha1HexUpper s).data.drop 5 := hm
  exact sha1Hex_chars s ch (List.mem_of_mem_drop hm')

theorem hexChars_not_ws : ∀ ch ∈ hexChars, isWsChar ch = false := by decide

theorem hexChars_toUpper_fixed : ∀ ch ∈ hexChars, Char.toUpper ch = ch := by decide

theorem hexChars_ne_nl : ∀ ch ∈ hexChars, ch ≠ '\n' := by decide

theorem hexChars_ne_colon : ∀ ch ∈ hexChars, ch ≠ ':' := by decide

theorem dropWhile_of_forall_not {p : Char → Bool} {l : List Char}
    (h : ∀ x ∈ l, p x = false) : l.dropWhile p = l := by
  cases l with
  | nil => rfl
  | cons a t =>
    rw [List.dropWhile_cons, h a (List.mem_cons_self a t)]
    simp

theorem map_id_of_fixed {f : Char → Char} {l : List Char}
    (h : ∀ x ∈ l, f x = x) : l.map f = l := by
  induction l with
  | nil => rfl
  | cons a t ih =>
    rw [List.map_cons, h a (List.mem_cons_self a t),
      ih fun x hx => h x (List.mem_cons_of_mem a hx)]

theorem jsTrim_of_no_ws {s : String} (h : ∀ ch ∈ s.data, isWsChar ch = false) :
    jsTrim s = s := by
  unfold jsTrim
  rw [dropWhile_of_forall_not h,
    dropWhile_of_forall_not fun x hx => h x (List.mem_reverse.mp hx),
    List.reverse_reverse]

theorem jsToUpper_of_fixed {s : String} (h : ∀ ch ∈ s.data, Char.toUpper ch = ch) :
    jsToUpper s = s := by
  unfold jsToUpper
  rw [map_id_of_fixed h]

/-- `scanLines` falls through to `some 0` when no line's first field
matches the remainder. -/
theorem scanLines_no_match (suf : String) :
    ∀ lines : List String,
      (∀ line ∈ lines,
        jsToUpper (jsTrim (((jsSplit ':' line.data).map String.mk).headD "")) ≠ suf) →
      scanLines suf lines = some 0 := by
  intro lines h
  induction lines with
  | nil => rfl
  | cons line rest ih =>
    unfold scanLines
    dsimp only
    rw [if_neg (h line (List.mem_cons_self line rest))]
    exact ih fun l hl => h l (List.mem_cons_of_mem line hl)

/-- A response whose single line matches the hash remainder but carries a
non-numeric count makes `checkPwnedPassword` return `NaN` (`none`): the
code applies `parseInt` to the count field without validating it. -/
theorem checkPwned_bad_count (pw c : String) (hc1 : '\n' ∉ c.data) (hc2 : ':' ∉ c.data)
    (hnum : digitRun (jsTrim c).data = []) :
    (checkPwnedPassword pw
      (FetchOutcome.response true (hashSuf pw ++ ":" ++ c))).1 = none := by
  have hsufchars := hashSuf_chars pw
  have hdata : (hashSuf pw ++ ":" ++ c).data = (hashSuf pw).data ++ ':' :: c.data := by
    show ((hashSuf pw).data ++ [':']) ++ c.data = (hashSuf pw).data ++ ':' :: c.data
    rw [List.append_assoc]
    rfl
  have hnonl : '\n' ∉ (hashSuf pw ++ ":" ++ c).data := by
    rw [hdata]
    intro hm
    rcases List.mem_append.mp hm with h | h
    · exact hexChars_ne_nl _ (hsufchars _ h) rfl
    · rcases List.mem_cons.mp h with h | h
      · exact absurd h (by decide)
      · exact hc1 h
  have hnocolon : ':' ∉ (hashSuf pw).data :=
    fun hm => hexChars_ne_colon _ (hsufchars _ hm) rfl
  have hetaS : String.mk (hashSuf pw).data = hashSuf pw := String.ext rfl
  have hetaC : String.mk c.data = c := String.ext rfl
  show scanLines (hashSuf pw)
      ((jsSplit '\n' (hashSuf pw ++ ":" ++ c).data).map String.mk) = none
  rw [jsSplit_of_not_mem hnonl]
  show (if jsToUpper (jsTrim
        (((jsSplit ':' (hashSuf pw ++ ":" ++ c).data).map String.mk).headD ""))
        = hashSuf pw
      then parseIntOpt (((jsSplit ':' (hashSuf pw ++ ":" ++ c).data).map String.mk).get? 1)
      else scanLines (hashSuf pw) []) = none
  rw [show jsSplit ':' (hashSuf pw ++ ":" ++ c).data = [(hashSuf pw).data, c.data] from by
    rw [hdata, jsSplit_append _ hnocolon, jsSplit_of_not_mem hc2]]
  dsimp only [List.map, List.headD, List.get?]
  rw [hetaS, hetaC]
  rw [jsTrim_of_no_ws fun ch hm => hexChars_not_ws _ (hsufchars _ hm)]
  rw [jsToUpper_of_fixed fun ch hm => hexChars_toUpper_fixed _ (hsufchars _ hm)]
  rw [if_pos rfl]
  unfold parseIntOpt jsParseInt
  dsimp only
  rw [hnum]
  simp


/-- Claim C5 (amended): failures of the breach-check lookup are swallowed
and never raised to the caller: a network error or a non-OK HTTP response
yields the count 0, a response body with no line matching the hash
remainder yields 0, and a matching line whose count is non-numeric yields
JavaScript `NaN` (`none` here) rather than 0; in every case
`validatePassword` treats the result as "password not found": for
passwords satisfying the length rule, its `valid` flag is true exactly
when the returned count is `NaN` or zero. -/
theorem C5_breach_check_failures_swallowed (pw body c : String)
    (net : PasswordPolicy.FetchOutcome)
    (hlen : PasswordPolicy.MIN_PASSWORD_LENGTH ≤ pw.length)
    (hnm : PasswordPolicy.noLineMatches (PasswordPolicy.hashSuf pw) body = true)
    (hc1 : '\n' ∉ c.data) (hc2 : ':' ∉ c.data)
    (hnum : PasswordPolicy.digitRun (PasswordPolicy.jsTrim c).data = []) :
    (PasswordPolicy.checkPwnedPassword pw PasswordPolicy.FetchOutcome.networkError).1 = some 0
    ∧ (∀ b : String, (PasswordPolicy.checkPwnedPassword pw
        (PasswordPolicy.FetchOutcome.response false b)).1 = some 0)
    ∧ (PasswordPolicy.checkPwnedPassword pw
        (PasswordPolicy.FetchOutcome.response true body)).1 = some 0
    ∧ (PasswordPolicy.checkPwnedPassword pw
        (PasswordPolicy.FetchOutcome.response true
          (PasswordPolicy.hashSuf pw ++ ":" ++ c))).1 = none
    ∧ ((PasswordPolicy.validatePassword pw net).1.valid = true ↔
        (PasswordPolicy.checkPwnedPassword pw net).1.getD 0 = 0) := by
  refine ⟨rfl, fun b => rfl, ?_,
    PasswordPolicy.checkPwned_bad_count pw c hc1 hc2 hnum, ?_⟩
  · show PasswordPolicy.scanLines (PasswordPolicy.hashSuf pw)
        ((jsSplit '\n' body.data).map String.mk) = some 0
    apply PasswordPolicy.scanLines_no_match
    unfold PasswordPolicy.noLineMatches at hnm
    rw [List.all_eq_true] at hnm
    intro line hl
    simpa using hnm line hl
  · have hnl : ¬(pw.length < PasswordPolicy.MIN_PASSWORD_LENGTH) := by omega
    unfold PasswordPolicy.validatePassword
    rw [if_neg hnl]
    dsimp only
    rw [if_pos rfl]
    cases hr : (PasswordPolicy.checkPwnedPassword pw net).1 with
    | none => simp
    | some k =>
      by_cases hk : k = 0
      · simp [hk]
      · simp [hk]

set_option maxRecDepth 16384 in
/-- Witness for the amended C5: an eight-character password, a non-OK
body, a no-match body `AB:3`, and the non-numeric count `x`. -/
theorem C5_breach_check_failures_swallowed_witness :
    (PasswordPolicy.MIN_PASSWORD_LENGTH ≤ ("longpass" : String).length
      ∧ PasswordPolicy.noLineMatches (PasswordPolicy.hashSuf "longpass") "AB:3" = true
      ∧ '\n' ∉ ("x" : String).data ∧ ':' ∉ ("x" : String).data
      ∧ PasswordPolicy.digitRun (PasswordPolicy.jsTrim "x").data = []) ∧
    ((PasswordPolicy.checkPwnedPassword "longpass"
        PasswordPolicy.FetchOutcome.networkError).1 = some 0
      ∧ (∀ b : String, (PasswordPolicy.checkPwnedPassword "longpass"
          (PasswordPolicy.FetchOutcome.response false b)).1 = some 0)
      ∧ (PasswordPolicy.checkPwnedPassword "longpass"
          (PasswordPolicy.FetchOutcome.response true "AB:3")).1 = some 0
      ∧ (PasswordPolicy.checkPwnedPassword "longpass"
          (PasswordPolicy.FetchOutcome.response true
            (PasswordPolicy.hashSuf "longpass" ++ ":" ++ "x"))).1 = none
      ∧ ((PasswordPolicy.validatePassword "longpass"
            PasswordPolicy.FetchOutcome.networkError).1.valid = true ↔
          (PasswordPolicy.checkPwnedPassword "longpass"
            PasswordPolicy.FetchOutcome.networkError).1.getD 0 = 0)) :=
  ⟨⟨by decide, by decide, by decide, by decide, by decide⟩,
    C5_breach_check_failures_swallowed "longpass" "AB:3" "x"
      PasswordPolicy.FetchOutcome.networkError (by decide) (by decide) (by decide)
      (by decide) (by decide)⟩

/-- Counterexample to claim C5 as stated: a malformed response body — a
line matching the hash remainder but carrying a non-numeric count — makes
`checkPwnedPassword` return `NaN` (`parseInt` of a non-number, `none`
here), not the stated 0 matches. The failure is still swallowed, but the
result is not 0. -/
theorem C5_counterexample :
    (PasswordPolicy.checkPwnedPassword "pw"
        (PasswordPolicy.FetchOutcome.response true (PasswordPolicy.hashSuf "pw" ++ ":x"))).1
      ≠ some 0 := by decide

/-- Claim C6: `validatePassword` combines the minimum-length rule with
the breach check: the `valid` flag is true exactly when `errors` is
empty; a password shorter than 8 characters is always invalid with the
minimum-length error; and the error list is always empty, the
minimum-length error alone, or a breach error alone. -/
theorem C6_validate_valid_iff_no_errors (pw : String) (net : PasswordPolicy.FetchOutcome) :
    ((PasswordPolicy.validatePassword pw net).1.valid = true ↔
      (PasswordPolicy.validatePassword pw net).1.errors = [])
    ∧ (PasswordPolicy.MIN_PASSWORD_LENGTH ≤ pw.length ∨
        ((PasswordPolicy.validatePassword pw net).1.valid = false ∧
          (PasswordPolicy.validatePassword pw net).1.errors = [PasswordPolicy.minLengthError]))
    ∧ ((PasswordPolicy.validatePassword pw net).1.errors = []
        ∨ (PasswordPolicy.validatePassword pw net).1.errors = [PasswordPolicy.minLengthError]
        ∨ ∃ k, k ≠ 0 ∧
            (PasswordPolicy.validatePassword pw net).1.errors = [PasswordPolicy.breachError k]) := by
  by_cases hlen : pw.length < PasswordPolicy.MIN_PASSWORD_LENGTH
  · unfold PasswordPolicy.validatePassword
    rw [if_pos hlen]
    dsimp only
    rw [if_neg (by simp)]
    refine ⟨by simp, Or.inr ⟨by simp, rfl⟩, Or.inr (Or.inl rfl)⟩
  · unfold PasswordPolicy.validatePassword
    rw [if_neg hlen]
    dsimp only
    rw [if_pos rfl]
    cases hr : (PasswordPolicy.checkPwnedPassword pw net).1 with
    | none => exact ⟨by simp, Or.inl (by omega), Or.inl rfl⟩
    | some k =>
      by_cases hk : k = 0
      · refine ⟨by simp [hk], Or.inl (by omega), Or.inl (by simp [hk])⟩
      · refine ⟨by simp [hk], Or.inl (by omega), Or.inr (Or.inr ⟨k, hk, by simp [hk]⟩)⟩

/-- Claim C7: the only password-derived data in the outbound request is
the five-character head of the hash: the trace is a single request to the
range URL, and two passwords whose hashes share that five-character head
produce identical traces, whatever the network does. -/
theorem C7_request_depends_only_on_hash_head (p1 p2 : String)
    (net1 net2 : PasswordPolicy.FetchOutcome)
    (h : PasswordPolicy.hashPre5 p1 = PasswordPolicy.hashPre5 p2) :
    (PasswordPolicy.checkPwnedPassword p1 net1).2 = [PasswordPolicy.requestUrl p1]
    ∧ (PasswordPolicy.checkPwnedPassword p1 net1).2 =
        (PasswordPolicy.checkPwnedPassword p2 net2).2 := by
  have hreq : PasswordPolicy.requestUrl p1 = PasswordPolicy.requestUrl p2 := by
    unfold PasswordPolicy.requestUrl
    rw [h]
  refine ⟨PasswordPolicy.checkPwned_trace p1 net1, ?_⟩
  rw [PasswordPolicy.checkPwned_trace, PasswordPolicy.checkPwned_trace, hreq]

/-- Witness for C7: the short passwords `a` and `b` have hashes sharing
the head `00000` in the digest model, and their outbound requests agree
even under different network outcomes. -/
theorem C7_request_depends_only_on_hash_head_witness :
    PasswordPolicy.hashPre5 "a" = PasswordPolicy.hashPre5 "b" ∧
    ((PasswordPolicy.checkPwnedPassword "a" PasswordPolicy.FetchOutcome.networkError).2 =
        [PasswordPolicy.requestUrl "a"]
      ∧ (PasswordPolicy.checkPwnedPassword "a" PasswordPolicy.FetchOutcome.networkError).2 =
          (PasswordPolicy.checkPwnedPassword "b"
            (PasswordPolicy.FetchOutcome.response true "")).2) :=
  ⟨by decide,
    C7_request_depends_only_on_hash_head "a" "b" PasswordPolicy.FetchOutcome.networkError
      (PasswordPolicy.FetchOutcome.response true "") (by decide)⟩

/-- Claim C9: for passwords shorter than 8 characters `validatePassword`
short-circuits: the result is invalid with exactly the minimum-length
error, the outbound request trace is empty (no breach-check lookup, hence
no hash and no network request), and the result is independent of the
network. -/
theorem C9_short_password_skips_lookup (pw : String)
    (net net' : PasswordPolicy.FetchOutcome)
    (h : pw.length < PasswordPolicy.MIN_PASSWORD_LENGTH) :
    PasswordPolicy.validatePassword pw net =
      (⟨false, [PasswordPolicy.minLengthError]⟩, [])
    ∧ PasswordPolicy.validatePassword pw net = PasswordPolicy.validatePassword pw net' := by
  have key : ∀ n : PasswordPolicy.FetchOutcome, PasswordPolicy.validatePassword pw n =
      (⟨false, [PasswordPolicy.minLengthError]⟩, []) := by
    intro n
    unfold PasswordPolicy.validatePassword
    rw [if_pos h]
    dsimp only
    rw [if_neg (by simp)]
    rfl
  exact ⟨key net, (key net).trans (key net').symm⟩

/-- Witness for C9 at a three-character password. -/
theorem C9_short_password_skips_lookup_witness :
    ("abc" : String).length < PasswordPolicy.MIN_PASSWORD_LENGTH ∧
    (PasswordPolicy.validatePassword "abc" PasswordPolicy.FetchOutcome.networkError =
        (⟨false, [PasswordPolicy.minLengthError]⟩, [])
      ∧ PasswordPolicy.validatePassword "abc" PasswordPolicy.FetchOutcome.networkError =
          PasswordPolicy.validatePassword "abc"
            (PasswordPolicy.FetchOutcome.response true "whatever")) :=
  ⟨by decide,
    C9_short_password_skips_lookup "abc" PasswordPolicy.FetchOutcome.networkError
      (PasswordPolicy.FetchOutcome.response true "whatever") (by decide)⟩

/-- Claim C10: `getPasswordStrength` is total with score in {0,1,2,3,4},
score 0 exactly for the empty string, the label always the capitalized
form of the level, and the result depending only on the password's length
and character-class coverage. -/
theorem C10_strength_shape_and_profile (p q : String)
    (h : PasswordPolicy.classProfile p = PasswordPolicy.classProfile q) :
    (PasswordPolicy.getPasswordStrength p).score ≤ 4
    ∧ ((PasswordPolicy.getPasswordStrength p).score = 0 ↔ p = "")
    ∧ ((PasswordPolicy.getPasswordStrength p).level,
        (PasswordPolicy.getPasswordStrength p).label)
        ∈ [("weak", "Weak"), ("fair", "Fair"), ("good", "Good"), ("strong", "Strong")]
    ∧ PasswordPolicy.getPasswordStrength p = PasswordPolicy.getPasswordStrength q :=
  ⟨(PasswordPolicy.strength_shape p).1, (PasswordPolicy.strength_shape p).2.1,
    (PasswordPolicy.strength_shape p).2.2, PasswordPolicy.strength_profile_eq h⟩

/-- Witness for C10 at two distinct passwords with the same profile. -/
theorem C10_strength_shape_and_profile_witness :
    PasswordPolicy.classProfile "Aa1!x" = PasswordPolicy.classProfile "Bb2?y" ∧
    ((PasswordPolicy.getPasswordStrength "Aa1!x").score ≤ 4
      ∧ ((PasswordPolicy.getPasswordStrength "Aa1!x").score = 0 ↔ ("Aa1!x" : String) = "")
      ∧ ((PasswordPolicy.getPasswordStrength "Aa1!x").level,
          (PasswordPolicy.getPasswordStrength "Aa1!x").label)
          ∈ [("weak", "Weak"), ("fair", "Fair"), ("good", "Good"), ("strong", "Strong")]
      ∧ PasswordPolicy.getPasswordStrength "Aa1!x" =
          PasswordPolicy.getPasswordStrength "Bb2?y") :=
  ⟨by decide, C10_strength_shape_and_profile "Aa1!x" "Bb2?y" (by decide)⟩
